import Mathlib

/-!
Shallow embedding of the two settings pages of cosmic-settings
(src/cosmic-settings/src/pages/time/date.rs and
src/cosmic-settings/src/pages/time/region.rs), together with theorems
about the bookkeeping logic of those pages: the preferred-languages
move-up / move-down / remove operations, the search-filtered lists of
the context drawers, the format toggles and their configuration-store
writes, and the timezone selection request.

Rust strings are modelled as lists of characters; Rust `Vec` indexing
operations that can panic (`Vec::swap`, `Vec::remove`) are modelled as
`Option`-returning functions where `none` means a panic.  Widget trees
are modelled by the list of data entries they render, and asynchronous
side effects (D-Bus requests) by explicit effect values returned from
the update functions.  Locale-aware formatting is delegated by the code
to the ICU library, so the formatter is a parameter of the model
(a field of `DateEnv`), not a definition of its own.
-/

namespace CosmicSettings

/-- Model of a Rust `String` as a list of characters. -/
abbrev Str := List Char

/-- Model of `str::to_lowercase`: character-wise lowercasing. -/
def strLower (s : Str) : Str := s.map Char.toLower

/-- Model of `str::trim`: remove whitespace from both ends. -/
def strTrim (s : Str) : Str :=
  ((s.dropWhile Char.isWhitespace).reverse.dropWhile Char.isWhitespace).reverse

/-- Model of `str::contains(pat)`: does `pat` occur as a contiguous
substring of `s`? -/
def strContains (s pat : Str) : Bool :=
  match s with
  | [] => pat.isEmpty
  | c :: tl => pat.isPrefixOf (c :: tl) || strContains tl pat

/-- Every string contains the empty string, as `str::contains` does. -/
theorem strContains_nil (s : Str) : strContains s [] = true := by
  cases s <;> simp [strContains, List.isPrefixOf]

/-- Model of `Vec::swap(a, b)`: `none` when either index is out of
bounds (a panic in Rust), otherwise the list with the two positions
exchanged. -/
def vecSwap {α : Type} (l : List α) (a b : Nat) : Option (List α) :=
  match l[a]?, l[b]? with
  | some x, some y => some ((l.set a y).set b x)
  | _, _ => none

/-- Model of `Vec::remove(i)`: `none` when the index is out of bounds
(a panic in Rust), otherwise the list with position `i` deleted. -/
def vecRemove {α : Type} (l : List α) (i : Nat) : Option (List α) :=
  if i < l.length then some (l.take i ++ l.drop (i + 1)) else none

/-- Swapping two in-bounds positions succeeds and exchanges exactly
those two entries, leaving every other position and the length
unchanged. -/
theorem vecSwap_spec {α : Type} (l : List α) (a b : Nat)
    (ha : a < l.length) (hb : b < l.length) :
    ∃ l', vecSwap l a b = some l'
      ∧ l'[a]? = l[b]? ∧ l'[b]? = l[a]?
      ∧ (∀ j, j ≠ a → j ≠ b → l'[j]? = l[j]?)
      ∧ l'.length = l.length := by
  have hx := List.getElem?_eq_getElem ha
  have hy := List.getElem?_eq_getElem hb
  refine ⟨(l.set a (l[b])).set b (l[a]), by simp [vecSwap, hx, hy],
    ?_, ?_, ?_, by simp⟩
  · by_cases hab : a = b
    · subst hab
      rw [List.getElem?_set_self (by simpa using ha), hy]
    · rw [List.getElem?_set_ne (fun h => hab h.symm),
        List.getElem?_set_self ha, hy]
  · rw [List.getElem?_set_self (by simpa using hb), hx]
  · intro j hja hjb
    rw [List.getElem?_set_ne (fun h => hjb h.symm),
      List.getElem?_set_ne (fun h => hja h.symm)]

/-- Setting a position to the value it already holds is the identity. -/
theorem set_self_of_getElem? {α : Type} (l : List α) (i : Nat) (x : α)
    (h : l[i]? = some x) : l.set i x = l := by
  apply List.ext_getElem?
  intro n
  by_cases hn : i = n
  · subst hn
    rw [List.getElem?_set_self (List.getElem?_eq_some.mp h).1, h]
  · rw [List.getElem?_set_ne hn]

/-- Swapping the same two positions twice restores the original list. -/
theorem vecSwap_vecSwap {α : Type} (l l' : List α) (a b : Nat)
    (h : vecSwap l a b = some l') : vecSwap l' b a = some l := by
  unfold vecSwap at h
  cases hx : l[a]? with
  | none => rw [hx] at h; exact absurd h (by simp)
  | some x =>
    cases hy : l[b]? with
    | none => rw [hx, hy] at h; exact absurd h (by simp)
    | some y =>
      rw [hx, hy] at h
      simp only [Option.some.injEq] at h
      subst h
      have ha : a < l.length := (List.getElem?_eq_some.mp hx).1
      have hb : b < l.length := (List.getElem?_eq_some.mp hy).1
      have hxy : a = b → x = y := by
        intro hab
        rw [hab, hy] at hx
        exact (Option.some.injEq _ _ ▸ hx.symm)
      have hb' : ((l.set a y).set b x)[b]? = some x :=
        List.getElem?_set_self (by simpa using hb)
      have ha' : ((l.set a y).set b x)[a]? = some y := by
        by_cases hab : a = b
        · subst hab
          rw [List.getElem?_set_self (by simpa using ha), hxy rfl]
        · rw [List.getElem?_set_ne (fun hc => hab hc.symm),
            List.getElem?_set_self ha]
      unfold vecSwap
      rw [hb', ha']
      show some ((((l.set a y).set b x).set b y).set a x) = some l
      congr 1
      apply List.ext_getElem?
      intro n
      by_cases hna : n = a
      · subst hna
        rw [List.getElem?_set_self (by simpa using ha), hx]
      · rw [List.getElem?_set_ne (fun hc => hna hc.symm)]
        by_cases hnb : n = b
        · subst hnb
          rw [List.getElem?_set_self (by simpa using hb), hy]
        · rw [List.getElem?_set_ne (fun hc => hnb hc.symm),
            List.getElem?_set_ne (fun hc => hnb hc.symm),
            List.getElem?_set_ne (fun hc => hna hc.symm)]

/-- Model of the `SystemLocale` struct of region.rs. -/
structure SystemLocale where
  lang_code : Str
  display_name : Str
  region_name : Str
deriving DecidableEq

/-- Model of the `ContextView` enum of region.rs. -/
inductive ContextView where
  | addLanguage
  | region
deriving DecidableEq

/-- Model of the `SourceContext` enum of region.rs. -/
inductive SourceContext where
  | moveDown (id : Nat)
  | moveUp (id : Nat)
  | remove (id : Nat)
deriving DecidableEq

/-- Model of the per-user `cosmic_config::Config` handle of the Region
page: the value currently stored under the "system_locales" key. -/
structure ConfigState where
  system_locales_stored : Option (List Str)
deriving DecidableEq

/-- Model of the `Page` struct of region.rs.  A `SlotMap` is modelled
as an association list of key-value pairs in iteration order; the
`registry` and `system_locales` fields, which only feed the
locale-formatting demos, are omitted. -/
structure RegionPage where
  config : Option (ConfigState × List Str)
  context : Option ContextView
  language : Option SystemLocale
  region : Option SystemLocale
  available_languages : List (Nat × SystemLocale)
  expanded_source_popover : Option Nat
  add_language_search : Str
deriving DecidableEq

/-- Lookup in the `SlotMap` model, as `SlotMap::get`. -/
def slotGet (m : List (Nat × SystemLocale)) (key : Nat) :
    Option SystemLocale :=
  (m.find? (fun entry => entry.1 == key)).map (fun entry => entry.2)

/-- Messages of the Region page that only touch page state.  The
messages whose handlers are dominated by external I/O (`SystemLocales`,
`SelectRegion`, `Refresh`, `InstallAdditionalLanguages`) are outside
the claims and are not modelled. -/
inductive RegionMessage where
  | addLanguage (id : Nat)
  | addLanguageContext
  | addLanguageSearch (s : Str)
  | expandLanguagePopover (id : Option Nat)
  | regionContext
  | sourceContext (cm : SourceContext)
  | removeLanguage (id : Nat)
deriving DecidableEq

/-- List operation performed on the preferred-languages vector by the
`Message::SourceContext` arm of `Page::update` (region.rs lines
298-314); `none` models a Rust panic from `Vec::swap` / `Vec::remove`. -/
def sourceOp (locales : List Str) : SourceContext → Option (List Str)
  | .moveDown id =>
    if id + 1 < locales.length then vecSwap locales id (id + 1)
    else some locales
  | .moveUp id =>
    if 0 < id then vecSwap locales id (id - 1)
    else some locales
  | .remove id => vecRemove locales id

/-- Continuation of the `Message::SourceContext` arm after the list
operation: write the list to the config store and re-derive
`self.language` from the head of the list (region.rs lines 316-336). -/
def applySourceResult (page : RegionPage) (config : ConfigState)
    (locales : List Str) : RegionPage :=
  let config := { config with system_locales_stored := some locales }
  let language :=
    match locales.head? with
    | none => page.language
    | some language_code =>
      match page.available_languages.find?
          (fun entry => entry.2.lang_code == language_code) with
      | none => page.language
      | some entry => some entry.2
  { page with config := some (config, locales), language := language }

/-- Model of `Page::update` of region.rs for the modelled messages.
The result is `none` when the Rust handler panics. -/
def regionUpdate (page : RegionPage) (message : RegionMessage) :
    Option RegionPage :=
  match message with
  | .addLanguage id =>
    match slotGet page.available_languages id with
    | none => some page
    | some language =>
      match page.config with
      | none => some page
      | some (config, locales) =>
        if language.lang_code ∈ locales then some page
        else
          let locales := locales ++ [language.lang_code]
          let config := { config with system_locales_stored := some locales }
          some { page with config := some (config, locales) }
  | .removeLanguage id =>
    match slotGet page.available_languages id with
    | none => some page
    | some language =>
      let page := { page with available_languages :=
        page.available_languages.filter (fun entry => entry.1 != id) }
      match page.config with
      | none => some page
      | some (config, locales) =>
        match locales.findIdx? (fun l => l == language.lang_code) with
        | none => some page
        | some pos =>
          match vecRemove locales pos with
          | none => none
          | some locales =>
            let config := { config with system_locales_stored := some locales }
            some { page with config := some (config, locales) }
  | .addLanguageContext =>
    some { page with context := some ContextView.addLanguage }
  | .addLanguageSearch s =>
    some { page with add_language_search := s }
  | .expandLanguagePopover id =>
    some { page with expanded_source_popover := id }
  | .regionContext =>
    some { page with context := some ContextView.region }
  | .sourceContext cm =>
    let page := { page with expanded_source_popover := none }
    match page.config with
    | none => some page
    | some (config, locales) =>
      (sourceOp locales cm).map (applySourceResult page config)

/-- Preferred-languages list currently held by the Region page, when a
config is loaded. -/
def prefLocales (page : RegionPage) : Option (List Str) :=
  page.config.map (fun c => c.2)

/-- Entries rendered by `Page::add_language_view` (region.rs lines
344-400): the available languages surviving the search filter, in
iteration order. -/
def add_language_view (page : RegionPage) : List (Nat × SystemLocale) :=
  let search_input := strLower (strTrim page.add_language_search)
  page.available_languages.filter
    (fun entry =>
      search_input.isEmpty
        || strContains (strLower entry.2.display_name) search_input)

/-- Entries rendered by `Page::region_view` (region.rs lines 514-567):
the available languages surviving the search filter (the filter tests
`display_name`, the row then shows `region_name`). -/
def region_view (page : RegionPage) : List (Nat × SystemLocale) :=
  let search_input := strLower (strTrim page.add_language_search)
  page.available_languages.filter
    (fun entry =>
      search_input.isEmpty
        || strContains (strLower entry.2.display_name) search_input)

/-- Model of the context drawer returned by the Region page: which view
it shows, the search text of its header, and the entries of its list. -/
inductive RegionDrawerModel where
  | addLanguage (search : Str) (content : List (Nat × SystemLocale))
  | region (search : Str) (content : List (Nat × SystemLocale))
deriving DecidableEq

/-- Model of `Page::context_drawer` of region.rs (lines 160-200). -/
def region_context_drawer (page : RegionPage) :
    Option RegionDrawerModel :=
  match page.context with
  | none => none
  | some ContextView.addLanguage =>
    some (RegionDrawerModel.addLanguage page.add_language_search
      (add_language_view page))
  | some ContextView.region =>
    some (RegionDrawerModel.region page.add_language_search
      (region_view page))

/-- Snapshot of the local wall-clock time as constructed by
`update_local_time` in date.rs from `chrono::Local::now()`. -/
structure LocalDateTime where
  year : Int
  month : Nat
  day : Nat
  hour : Nat
  minute : Nat
  second : Nat
deriving DecidableEq

/-- Environment of the Date page update: the current wall-clock time
and the ICU-delegated `format_date` function of date.rs (the spec notes
that locale-aware formatting is delegated entirely to the
internationalization library, so it is a parameter of the model), plus
the localized "unknown" fallback text. -/
structure DateEnv where
  now : LocalDateTime
  format_date : LocalDateTime → Bool → Bool → Str
  unknown_text : Str

/-- Values stored in the per-user configuration store
"com.system76.CosmicAppletTime", one optional value per key used by
date.rs. -/
structure AppletTimeConfig where
  military_time : Option Bool
  show_seconds : Option Bool
  first_day_of_week : Option Nat
  show_date_in_top_panel : Option Bool
deriving DecidableEq

/-- Model of the `Page` struct of date.rs (the `entity` handle is
omitted). -/
structure DatePage where
  cosmic_applet_config : AppletTimeConfig
  first_day_of_week : Nat
  military_time : Bool
  show_seconds : Bool
  ntp_enabled : Bool
  show_date_in_top_panel : Bool
  timezone_context : Bool
  local_time : Option LocalDateTime
  timezone : Option Nat
  timezone_list : List Str
  timezone_search : Str
  formatted_date : Str
deriving DecidableEq

/-- Model of the `Info` struct of date.rs carried by
`Message::Refresh`. -/
structure DateInfo where
  ntp_enabled : Bool
  timezone_id : Option Nat
  timezone_list : List Str
deriving DecidableEq

/-- Model of the `Message` enum of date.rs. -/
inductive DateMessage where
  | error (why : Str)
  | militaryTime (enable : Bool)
  | showSeconds (enable : Bool)
  | noOp
  | firstDayOfWeek (weekday : Nat)
  | refresh (info : DateInfo)
  | showDate (enable : Bool)
  | timezone (timezone_id : Nat)
  | timezoneContext
  | timezoneSearch (text : Str)
  | updateTime
  | surface
deriving DecidableEq

/-- Externally visible actions triggered by `Page::update` of date.rs:
messages returned to the application and asynchronous D-Bus requests. -/
inductive DateEffect where
  | openContextDrawer
  | closeContextDrawer
  | setTimezoneRequest (timezone : Str)
  | setNtpRequest (enable : Bool)
  | surfaceAction
deriving DecidableEq

/-- Model of `Page::update_local_time` of date.rs (lines 355-362). -/
def update_local_time (env : DateEnv) (page : DatePage) : DatePage :=
  let page := { page with local_time := some env.now }
  let formatted_date :=
    match page.local_time with
    | some time => env.format_date time page.military_time page.show_seconds
    | none => env.unknown_text
  { page with formatted_date := formatted_date }

/-- Model of `Page::update` of date.rs (lines 197-304), paired with the
list of external actions it triggers. -/
def dateUpdate (env : DateEnv) (page : DatePage) (message : DateMessage) :
    DatePage × List DateEffect :=
  match message with
  | .timezoneContext =>
    ({ page with timezone_search := [], timezone_context := true },
      [DateEffect.openContextDrawer])
  | .militaryTime enable =>
    let page := update_local_time env { page with military_time := enable }
    let applet_config :=
      { page.cosmic_applet_config with military_time := some enable }
    ({ page with cosmic_applet_config := applet_config }, [])
  | .showSeconds enable =>
    let page := update_local_time env { page with show_seconds := enable }
    let applet_config :=
      { page.cosmic_applet_config with show_seconds := some enable }
    ({ page with cosmic_applet_config := applet_config }, [])
  | .firstDayOfWeek weekday =>
    let page := { page with first_day_of_week := weekday }
    let applet_config :=
      { page.cosmic_applet_config with first_day_of_week := some weekday }
    ({ page with cosmic_applet_config := applet_config }, [])
  | .showDate enable =>
    let page := { page with show_date_in_top_panel := enable }
    let applet_config :=
      { page.cosmic_applet_config with show_date_in_top_panel := some enable }
    ({ page with cosmic_applet_config := applet_config }, [])
  | .timezoneSearch text =>
    ({ page with timezone_search := text }, [])
  | .timezone timezone_id =>
    let effects :=
      match page.timezone_list[timezone_id]? with
      | some timezone => [DateEffect.setTimezoneRequest timezone]
      | none => []
    ({ page with timezone := some timezone_id }, effects)
  | .error _ =>
    ({ page with timezone_context := false },
      [DateEffect.closeContextDrawer])
  | .updateTime =>
    let page := update_local_time env { page with ntp_enabled := true }
    ({ page with timezone_context := false },
      [DateEffect.setNtpRequest true, DateEffect.closeContextDrawer])
  | .refresh info =>
    let page := { page with
      ntp_enabled := info.ntp_enabled,
      timezone_list := info.timezone_list,
      timezone := info.timezone_id }
    (update_local_time env page, [])
  | .surface => (page, [DateEffect.surfaceAction])
  | .noOp => (page, [])

/-- Entries rendered by `Page::timezone_context_view` (date.rs lines
330-343): the indexed timezones surviving the search filter, in their
original order. -/
def timezone_context_view (page : DatePage) : List (Nat × Str) :=
  let search_input := strLower (strTrim page.timezone_search)
  page.timezone_list.enum.filter
    (fun entry =>
      search_input.isEmpty || strContains (strLower entry.2) search_input)

/-- Model of the context drawer of the Date page: the search text of
its header and the timezone entries of its list. -/
structure DateDrawerModel where
  search : Str
  content : List (Nat × Str)
deriving DecidableEq

/-- Model of `Page::context_drawer` of date.rs (lines 173-193). -/
def date_context_drawer (page : DatePage) : Option DateDrawerModel :=
  if page.timezone_context then
    some { search := page.timezone_search,
           content := timezone_context_view page }
  else none

/-- Whatever happens to the `language` field, the config resulting
from the source-context continuation holds the new list, both in
memory and in the store. -/
theorem applySourceResult_config (page : RegionPage) (config : ConfigState)
    (locales : List Str) :
    (applySourceResult page config locales).config =
      some ({ config with system_locales_stored := some locales },
        locales) := rfl

/-- Preferred-languages list after the source-context continuation. -/
theorem prefLocales_applySourceResult (page : RegionPage)
    (config : ConfigState) (locales : List Str) :
    prefLocales (applySourceResult page config locales) = some locales := by
  rw [prefLocales, applySourceResult_config]
  rfl

/-- Handling a source-context message reduces to the list operation
followed by the continuation, once a config is loaded. -/
theorem regionUpdate_sourceContext (page : RegionPage) (cfg : ConfigState)
    (locales : List Str) (cm : SourceContext)
    (hc : page.config = some (cfg, locales)) :
    regionUpdate page (RegionMessage.sourceContext cm) =
      (sourceOp locales cm).map
        (applySourceResult { page with expanded_source_popover := none }
          cfg) := by
  unfold regionUpdate
  simp [hc]

/-- C4: handling each format toggle message of the Date & Time page —
MilitaryTime(v), ShowSeconds(v), FirstDayOfWeek(w), ShowDate(v) — sets
the corresponding page field and writes the same value to the per-user
configuration store under the corresponding key, so page state and
store agree after the update. -/
theorem format_toggles_set_field_and_store (env : DateEnv)
    (page : DatePage) (v : Bool) (w : Nat) :
    ((dateUpdate env page (DateMessage.militaryTime v)).1.military_time = v
      ∧ (dateUpdate env page
          (DateMessage.militaryTime v)).1.cosmic_applet_config.military_time
        = some v)
    ∧ ((dateUpdate env page (DateMessage.showSeconds v)).1.show_seconds = v
      ∧ (dateUpdate env page
          (DateMessage.showSeconds v)).1.cosmic_applet_config.show_seconds
        = some v)
    ∧ ((dateUpdate env page
          (DateMessage.firstDayOfWeek w)).1.first_day_of_week = w
      ∧ (dateUpdate env page
          (DateMessage.firstDayOfWeek w)).1.cosmic_applet_config.first_day_of_week
        = some w)
    ∧ ((dateUpdate env page
          (DateMessage.showDate v)).1.show_date_in_top_panel = v
      ∧ (dateUpdate env page
          (DateMessage.showDate v)).1.cosmic_applet_config.show_date_in_top_panel
        = some v) :=
  ⟨⟨rfl, rfl⟩, ⟨rfl, rfl⟩, ⟨rfl, rfl⟩, ⟨rfl, rfl⟩⟩

/-- C8: a format toggle changes nothing beyond its own field, the
derived time display, and its configuration-store key.  Each equation
exhibits the complete resulting page record, so in particular timezone,
timezone_list, timezone_search, timezone_context and ntp_enabled are
unchanged in every case, and FirstDayOfWeek / ShowDate leave even
local_time and formatted_date untouched. -/
theorem format_toggles_frame (env : DateEnv) (page : DatePage)
    (v : Bool) (w : Nat) :
    ((dateUpdate env page (DateMessage.militaryTime v)).1 =
      { page with
          military_time := v,
          local_time := some env.now,
          formatted_date := env.format_date env.now v page.show_seconds,
          cosmic_applet_config :=
            { page.cosmic_applet_config with military_time := some v } })
    ∧ ((dateUpdate env page (DateMessage.showSeconds v)).1 =
      { page with
          show_seconds := v,
          local_time := some env.now,
          formatted_date := env.format_date env.now page.military_time v,
          cosmic_applet_config :=
            { page.cosmic_applet_config with show_seconds := some v } })
    ∧ ((dateUpdate env page (DateMessage.firstDayOfWeek w)).1 =
      { page with
          first_day_of_week := w,
          cosmic_applet_config :=
            { page.cosmic_applet_config with
                first_day_of_week := some w } })
    ∧ ((dateUpdate env page (DateMessage.showDate v)).1 =
      { page with
          show_date_in_top_panel := v,
          cosmic_applet_config :=
            { page.cosmic_applet_config with
                show_date_in_top_panel := some v } }) :=
  ⟨rfl, rfl, rfl, rfl⟩

/-- C6: handling Timezone(timezone_id) records the selection as
timezone = some timezone_id, and issues a set_timezone D-Bus request
carrying timezone_list[timezone_id] if and only if timezone_id is in
range; out of range, no request is issued. -/
theorem timezone_message_request (env : DateEnv) (page : DatePage)
    (timezone_id : Nat) :
    (dateUpdate env page (DateMessage.timezone timezone_id)).1.timezone
        = some timezone_id
    ∧ (∀ tz, page.timezone_list[timezone_id]? = some tz →
        (dateUpdate env page (DateMessage.timezone timezone_id)).2
          = [DateEffect.setTimezoneRequest tz])
    ∧ (page.timezone_list.length ≤ timezone_id →
        (dateUpdate env page (DateMessage.timezone timezone_id)).2 = [])
    ∧ ((∃ tz, DateEffect.setTimezoneRequest tz
          ∈ (dateUpdate env page (DateMessage.timezone timezone_id)).2)
        ↔ timezone_id < page.timezone_list.length) := by
  have heff : (dateUpdate env page (DateMessage.timezone timezone_id)).2 =
      match page.timezone_list[timezone_id]? with
      | some tz => [DateEffect.setTimezoneRequest tz]
      | none => [] := rfl
  refine ⟨rfl, ?_, ?_, ?_⟩
  · intro tz htz
    rw [heff, htz]
  · intro hlen
    rw [heff, List.getElem?_eq_none hlen]
  · constructor
    · rintro ⟨tz, htz⟩
      by_contra hge
      rw [heff, List.getElem?_eq_none (Nat.le_of_not_lt hge)] at htz
      simp at htz
    · intro hlt
      refine ⟨page.timezone_list[timezone_id], ?_⟩
      rw [heff, List.getElem?_eq_getElem hlt]
      simp

/-- Testing the short-circuited search predicate of the views is the
same as testing substring containment alone, because every string
contains the empty string. -/
theorem search_pred_eq (s pat : Str) :
    (pat.isEmpty || strContains s pat) = strContains s pat := by
  cases pat with
  | nil => simp [strContains_nil]
  | cons c tl => simp

/-- Sample locale values for concrete instantiations. -/
def sampleLocaleEn : SystemLocale :=
  { lang_code := ['e', 'n'],
    display_name := ['E', 'n', 'g', 'l', 'i', 's', 'h'],
    region_name := ['E', 'n', 'g', 'l', 'i', 's', 'h'] }

/-- Second sample locale value. -/
def sampleLocaleFr : SystemLocale :=
  { lang_code := ['f', 'r'],
    display_name := ['F', 'r', 'e', 'n', 'c', 'h'],
    region_name := ['F', 'r', 'e', 'n', 'c', 'h'] }

/-- Third sample locale value, not among the preferred languages of
the sample page. -/
def sampleLocaleIt : SystemLocale :=
  { lang_code := ['i', 't'],
    display_name := ['I', 't', 'a', 'l', 'i', 'a', 'n'],
    region_name := ['I', 't', 'a', 'l', 'i', 'a', 'n'] }

/-- Sample Region page with a loaded config holding three preferred
languages. -/
def sampleRegionPage : RegionPage :=
  { config := some ({ system_locales_stored := none },
      [['e', 'n'], ['f', 'r'], ['d', 'e']]),
    context := none,
    language := none,
    region := none,
    available_languages :=
      [(0, sampleLocaleEn), (1, sampleLocaleFr), (2, sampleLocaleIt)],
    expanded_source_popover := none,
    add_language_search := [] }

/-- Sample Date page with two timezones and the context open. -/
def sampleDatePage : DatePage :=
  { cosmic_applet_config :=
      { military_time := none, show_seconds := none,
        first_day_of_week := none, show_date_in_top_panel := none },
    first_day_of_week := 6,
    military_time := false,
    show_seconds := false,
    ntp_enabled := false,
    show_date_in_top_panel := true,
    timezone_context := true,
    local_time := none,
    timezone := none,
    timezone_list := [['U', 'T', 'C'], ['G', 'M', 'T']],
    timezone_search := [],
    formatted_date := [] }

/-- Sample environment with a trivial formatter. -/
def sampleEnv : DateEnv :=
  { now := { year := 2024, month := 1, day := 1,
             hour := 0, minute := 0, second := 0 },
    format_date := fun _ _ _ => [],
    unknown_text := [] }

/-- C3: each search-filtered list (timezones of the Date page,
available languages of the Region page) contains exactly the entries
whose lowercased display text contains the trimmed lowercased search
string, all entries when the trimmed search string is empty, and the
survivors keep their original relative order (they form a sublist of
the original enumeration). -/
theorem search_filtered_lists (dp : DatePage) (rp : RegionPage) :
    (timezone_context_view dp = dp.timezone_list.enum.filter
        (fun entry => strContains (strLower entry.2)
          (strLower (strTrim dp.timezone_search))))
    ∧ (strTrim dp.timezone_search = [] →
        timezone_context_view dp = dp.timezone_list.enum)
    ∧ (timezone_context_view dp).Sublist dp.timezone_list.enum
    ∧ (add_language_view rp = rp.available_languages.filter
        (fun entry => strContains (strLower entry.2.display_name)
          (strLower (strTrim rp.add_language_search))))
    ∧ (strTrim rp.add_language_search = [] →
        add_language_view rp = rp.available_languages)
    ∧ (add_language_view rp).Sublist rp.available_languages := by
  refine ⟨?_, ?_, ?_, ?_, ?_, ?_⟩
  · exact List.filter_congr (fun x _ => search_pred_eq _ _)
  · intro htrim
    unfold timezone_context_view
    rw [htrim]
    simp [strLower]
  · exact List.filter_sublist _
  · exact List.filter_congr (fun x _ => search_pred_eq _ _)
  · intro htrim
    unfold add_language_view
    rw [htrim]
    simp [strLower]
  · exact List.filter_sublist _

/-- Witness for C3 at concrete pages whose search strings trim to
empty: both views return every entry. -/
theorem search_filtered_lists_witness :
    timezone_context_view sampleDatePage = sampleDatePage.timezone_list.enum
    ∧ add_language_view sampleRegionPage
        = sampleRegionPage.available_languages :=
  ⟨(search_filtered_lists sampleDatePage sampleRegionPage).2.1 (by decide),
   (search_filtered_lists sampleDatePage
     sampleRegionPage).2.2.2.2.1 (by decide)⟩

/-- C7: the context drawer is present exactly when the page's context
state is set — the Date page returns some drawer (the search header
plus the filtered timezone list) if and only if timezone_context is
true, and the Region page returns some drawer (the add-language or the
region list, according to the stored ContextView) if and only if its
context field is some. -/
theorem context_drawer_presence (dp : DatePage) (rp : RegionPage) :
    ((date_context_drawer dp).isSome = dp.timezone_context)
    ∧ (dp.timezone_context = true →
        date_context_drawer dp = some
          { search := dp.timezone_search,
            content := timezone_context_view dp })
    ∧ ((region_context_drawer rp).isSome = rp.context.isSome)
    ∧ (rp.context = some ContextView.addLanguage →
        region_context_drawer rp = some
          (RegionDrawerModel.addLanguage rp.add_language_search
            (add_language_view rp)))
    ∧ (rp.context = some ContextView.region →
        region_context_drawer rp = some
          (RegionDrawerModel.region rp.add_language_search
            (region_view rp))) := by
  refine ⟨?_, ?_, ?_, ?_, ?_⟩
  · unfold date_context_drawer
    cases h : dp.timezone_context <;> simp [h]
  · intro h
    unfold date_context_drawer
    simp [h]
  · unfold region_context_drawer
    cases h : rp.context with
    | none => rfl
    | some v => cases v <;> rfl
  · intro h
    unfold region_context_drawer
    rw [h]
  · intro h
    unfold region_context_drawer
    rw [h]

/-- Witness for C7 at concrete pages with each context state set. -/
theorem context_drawer_presence_witness :
    date_context_drawer sampleDatePage = some
      { search := sampleDatePage.timezone_search,
        content := timezone_context_view sampleDatePage }
    ∧ region_context_drawer
        { sampleRegionPage with context := some ContextView.addLanguage }
      = some (RegionDrawerModel.addLanguage
          sampleRegionPage.add_language_search
          (add_language_view
            { sampleRegionPage with
                context := some ContextView.addLanguage }))
    ∧ region_context_drawer
        { sampleRegionPage with context := some ContextView.region }
      = some (RegionDrawerModel.region
          sampleRegionPage.add_language_search
          (region_view
            { sampleRegionPage with context := some ContextView.region })) :=
  ⟨(context_drawer_presence sampleDatePage sampleRegionPage).2.1 rfl,
   (context_drawer_presence sampleDatePage
     { sampleRegionPage with
         context := some ContextView.addLanguage }).2.2.2.1 rfl,
   (context_drawer_presence sampleDatePage
     { sampleRegionPage with
         context := some ContextView.region }).2.2.2.2 rfl⟩

/-- Swapping with an out-of-bounds first index panics. -/
theorem vecSwap_eq_none_left {α : Type} (l : List α) (a b : Nat)
    (h : l.length ≤ a) : vecSwap l a b = none := by
  unfold vecSwap
  rw [List.getElem?_eq_none h]

/-- Characterization of the panics of the source-context list
operation: MoveDown never panics, MoveUp panics exactly when id is
positive and out of bounds, Remove exactly when id is out of bounds. -/
theorem sourceOp_eq_none_iff (locales : List Str) (cm : SourceContext) :
    sourceOp locales cm = none ↔
      (∃ id, cm = SourceContext.moveUp id ∧ 0 < id
        ∧ locales.length ≤ id)
      ∨ (∃ id, cm = SourceContext.remove id ∧ locales.length ≤ id) := by
  cases cm with
  | moveDown id =>
    simp only [sourceOp]
    constructor
    · intro h
      by_cases hid : id + 1 < locales.length
      · rw [if_pos hid] at h
        obtain ⟨l', hl', -⟩ := vecSwap_spec locales id (id + 1)
          (Nat.lt_of_succ_lt hid) hid
        rw [hl'] at h
        exact absurd h (by simp)
      · rw [if_neg hid] at h
        exact absurd h (by simp)
    · rintro (⟨id', h, -⟩ | ⟨id', h, -⟩) <;> exact absurd h (by simp)
  | moveUp id =>
    simp only [sourceOp]
    constructor
    · intro h
      by_cases hpos : 0 < id
      · rw [if_pos hpos] at h
        by_cases hid : id < locales.length
        · obtain ⟨l', hl', -⟩ := vecSwap_spec locales id (id - 1) hid
            (Nat.lt_of_le_of_lt (Nat.sub_le id 1) hid)
          rw [hl'] at h
          exact absurd h (by simp)
        · exact Or.inl ⟨id, rfl, hpos, Nat.le_of_not_lt hid⟩
      · rw [if_neg hpos] at h
        exact absurd h (by simp)
    · rintro (⟨id', h, hpos, hlen⟩ | ⟨id', h, -⟩)
      · cases h
        rw [if_pos hpos]
        exact vecSwap_eq_none_left _ _ _ hlen
      · exact absurd h (by simp)
  | remove id =>
    simp only [sourceOp, vecRemove]
    constructor
    · intro h
      by_cases hid : id < locales.length
      · rw [if_pos hid] at h
        exact absurd h (by simp)
      · exact Or.inr ⟨id, rfl, Nat.le_of_not_lt hid⟩
    · rintro (⟨id', h, -⟩ | ⟨id', h, hlen⟩)
      · exact absurd h (by simp)
      · cases h
        rw [if_neg (Nat.not_lt.mpr hlen)]

/-- C1: with a config loaded, MoveUp(id) with both positions in bounds
exchanges exactly the entries at positions id-1 and id and leaves every
other position and the length unchanged (so no entry is added, dropped
or modified); MoveUp(0) leaves the list unchanged; MoveDown(id)
exchanges exactly positions id and id+1 when id+1 is in bounds and
leaves the list unchanged otherwise. -/
theorem move_spec (page : RegionPage) (cfg : ConfigState)
    (locales : List Str) (id : Nat)
    (hc : page.config = some (cfg, locales)) :
    (id = 0 →
      ∃ p', regionUpdate page
          (RegionMessage.sourceContext (SourceContext.moveUp id)) = some p'
        ∧ prefLocales p' = some locales)
    ∧ (0 < id → id < locales.length →
      ∃ p' l', regionUpdate page
          (RegionMessage.sourceContext (SourceContext.moveUp id)) = some p'
        ∧ prefLocales p' = some l'
        ∧ l'[id - 1]? = locales[id]?
        ∧ l'[id]? = locales[id - 1]?
        ∧ (∀ j, j ≠ id - 1 → j ≠ id → l'[j]? = locales[j]?)
        ∧ l'.length = locales.length)
    ∧ (id + 1 < locales.length →
      ∃ p' l', regionUpdate page
          (RegionMessage.sourceContext (SourceContext.moveDown id)) = some p'
        ∧ prefLocales p' = some l'
        ∧ l'[id]? = locales[id + 1]?
        ∧ l'[id + 1]? = locales[id]?
        ∧ (∀ j, j ≠ id → j ≠ id + 1 → l'[j]? = locales[j]?)
        ∧ l'.length = locales.length)
    ∧ (locales.length ≤ id + 1 →
      ∃ p', regionUpdate page
          (RegionMessage.sourceContext (SourceContext.moveDown id)) = some p'
        ∧ prefLocales p' = some locales) := by
  refine ⟨?_, ?_, ?_, ?_⟩
  · intro h0
    subst h0
    have hop : sourceOp locales (SourceContext.moveUp 0) = some locales := by
      simp [sourceOp]
    rw [regionUpdate_sourceContext page cfg locales _ hc, hop]
    exact ⟨_, rfl, prefLocales_applySourceResult _ _ _⟩
  · intro hpos hid
    obtain ⟨l', hsw, h1, h2, h3, h4⟩ := vecSwap_spec locales id (id - 1) hid
      (Nat.lt_of_le_of_lt (Nat.sub_le id 1) hid)
    have hop : sourceOp locales (SourceContext.moveUp id) = some l' := by
      simp [sourceOp, hpos, hsw]
    rw [regionUpdate_sourceContext page cfg locales _ hc, hop]
    exact ⟨_, l', rfl, prefLocales_applySourceResult _ _ _,
      h2, h1, fun j hj1 hj2 => h3 j hj2 hj1, h4⟩
  · intro hid
    obtain ⟨l', hsw, h1, h2, h3, h4⟩ := vecSwap_spec locales id (id + 1)
      (Nat.lt_of_succ_lt hid) hid
    have hop : sourceOp locales (SourceContext.moveDown id) = some l' := by
      simp [sourceOp, hid, hsw]
    rw [regionUpdate_sourceContext page cfg locales _ hc, hop]
    exact ⟨_, l', rfl, prefLocales_applySourceResult _ _ _,
      h1, h2, h3, h4⟩
  · intro hlen
    have hop : sourceOp locales (SourceContext.moveDown id)
        = some locales := by
      simp [sourceOp, Nat.not_lt.mpr hlen]
    rw [regionUpdate_sourceContext page cfg locales _ hc, hop]
    exact ⟨_, rfl, prefLocales_applySourceResult _ _ _⟩

/-- Witness for C1 at concrete inputs exercising each case: MoveUp(0)
and an out-of-range MoveDown leave the three-entry list unchanged, and
in-range MoveUp(1) and MoveDown(0) complete without a panic. -/
theorem move_spec_witness :
    (∃ p', regionUpdate sampleRegionPage
        (RegionMessage.sourceContext (SourceContext.moveUp 0)) = some p'
      ∧ prefLocales p' = some [['e', 'n'], ['f', 'r'], ['d', 'e']])
    ∧ (∃ p', regionUpdate sampleRegionPage
        (RegionMessage.sourceContext (SourceContext.moveUp 1)) = some p')
    ∧ (∃ p', regionUpdate sampleRegionPage
        (RegionMessage.sourceContext (SourceContext.moveDown 0)) = some p')
    ∧ (∃ p', regionUpdate sampleRegionPage
        (RegionMessage.sourceContext (SourceContext.moveDown 5)) = some p'
      ∧ prefLocales p' = some [['e', 'n'], ['f', 'r'], ['d', 'e']]) := by
  refine ⟨?_, ?_, ?_, ?_⟩
  · exact (move_spec sampleRegionPage _ _ 0 rfl).1 rfl
  · obtain ⟨p', l', h, -⟩ :=
      (move_spec sampleRegionPage _ _ 1 rfl).2.1 (by decide) (by decide)
    exact ⟨p', h⟩
  · obtain ⟨p', l', h, -⟩ :=
      (move_spec sampleRegionPage _ _ 0 rfl).2.2.1 (by decide)
    exact ⟨p', h⟩
  · exact (move_spec sampleRegionPage _ _ 5 rfl).2.2.2 (by decide)

/-- C2: with a config loaded and id in bounds, Remove(id) deletes
exactly the entry at position id: the result is take id ++ drop (id+1),
its length is one less, it is a sublist of the original (relative order
preserved), entries before id keep their positions and entries after id
shift down by one. -/
theorem remove_entry (page : RegionPage) (cfg : ConfigState)
    (locales : List Str) (id : Nat)
    (hc : page.config = some (cfg, locales))
    (hid : id < locales.length) :
    ∃ p', regionUpdate page
        (RegionMessage.sourceContext (SourceContext.remove id)) = some p'
      ∧ prefLocales p'
          = some (locales.take id ++ locales.drop (id + 1))
      ∧ (locales.take id ++ locales.drop (id + 1)).length + 1
          = locales.length
      ∧ (locales.take id ++ locales.drop (id + 1)).Sublist locales
      ∧ (∀ j, j < id →
          (locales.take id ++ locales.drop (id + 1))[j]? = locales[j]?)
      ∧ (∀ j, id ≤ j →
          (locales.take id ++ locales.drop (id + 1))[j]?
            = locales[j + 1]?) := by
  have hop : sourceOp locales (SourceContext.remove id)
      = some (locales.take id ++ locales.drop (id + 1)) := by
    simp [sourceOp, vecRemove, hid]
  rw [regionUpdate_sourceContext page cfg locales _ hc, hop]
  have htk : (locales.take id).length = id := by
    rw [List.length_take]
    exact Nat.min_eq_left (Nat.le_of_lt hid)
  refine ⟨_, rfl, prefLocales_applySourceResult _ _ _, ?_, ?_, ?_, ?_⟩
  · rw [List.length_append, htk, List.length_drop]
    omega
  · conv_rhs => rw [← List.take_append_drop id locales]
    exact (List.drop_sublist_drop_left locales
      (Nat.le_succ id)).append_left _
  · intro j hj
    rw [List.getElem?_append_left (lt_of_lt_of_eq hj htk.symm),
      List.getElem?_take]
    exact if_pos hj
  · intro j hj
    rw [List.getElem?_append_right (le_of_eq_of_le htk hj), htk,
      List.getElem?_drop]
    congr 1
    omega

/-- Witness for C2: removing position 1 of the three-entry sample list
leaves the first and third entries in order. -/
theorem remove_entry_witness :
    ∃ p', regionUpdate sampleRegionPage
        (RegionMessage.sourceContext (SourceContext.remove 1)) = some p'
      ∧ prefLocales p' = some [['e', 'n'], ['d', 'e']] := by
  obtain ⟨p', h1, h2, -⟩ :=
    remove_entry sampleRegionPage _ _ 1 rfl (by decide)
  exact ⟨p', h1, h2.trans (by decide)⟩

/-- C9 counterexample: the claim says handling any SourceContext
message never panics, including ids at or beyond the list's length, but
MoveUp(5) on a three-entry list reaches Vec::swap(5, 4), which panics
(modelled as a none result). -/
theorem sourceContext_out_of_range_panics :
    regionUpdate sampleRegionPage
      (RegionMessage.sourceContext (SourceContext.moveUp 5)) = none := by
  decide

/-- C9 amended: with a config loaded, handling a SourceContext message
panics exactly when it is MoveUp(id) with 0 < id and id out of bounds,
or Remove(id) with id out of bounds; in particular MoveDown never
panics and in-bounds ids never panic. -/
theorem sourceContext_panic_iff (page : RegionPage) (cfg : ConfigState)
    (locales : List Str) (cm : SourceContext)
    (hc : page.config = some (cfg, locales)) :
    regionUpdate page (RegionMessage.sourceContext cm) = none ↔
      (∃ id, cm = SourceContext.moveUp id ∧ 0 < id
        ∧ locales.length ≤ id)
      ∨ (∃ id, cm = SourceContext.remove id ∧ locales.length ≤ id) := by
  rw [regionUpdate_sourceContext page cfg locales cm hc,
    Option.map_eq_none']
  exact sourceOp_eq_none_iff locales cm

/-- Witness for the amended C9: Remove(7) on the three-entry sample
list panics. -/
theorem sourceContext_panic_iff_witness :
    regionUpdate sampleRegionPage
      (RegionMessage.sourceContext (SourceContext.remove 7)) = none :=
  (sourceContext_panic_iff sampleRegionPage _ _ _ rfl).mpr
    (Or.inr ⟨7, rfl, by decide⟩)

/-- C10: with a config loaded and id+1 in bounds, MoveDown(id) followed
by MoveUp(id+1) restores the preferred-languages list to its original
contents and order. -/
theorem move_down_then_up (page : RegionPage) (cfg : ConfigState)
    (locales : List Str) (id : Nat)
    (hc : page.config = some (cfg, locales))
    (hid : id + 1 < locales.length) :
    ∃ p' p'', regionUpdate page
        (RegionMessage.sourceContext (SourceContext.moveDown id)) = some p'
      ∧ regionUpdate p'
          (RegionMessage.sourceContext (SourceContext.moveUp (id + 1)))
        = some p''
      ∧ prefLocales p'' = some locales := by
  obtain ⟨l', hsw, -, -, -, -⟩ := vecSwap_spec locales id (id + 1)
    (Nat.lt_of_succ_lt hid) hid
  have hop1 : sourceOp locales (SourceContext.moveDown id) = some l' := by
    simp [sourceOp, hid, hsw]
  have h1 : regionUpdate page
      (RegionMessage.sourceContext (SourceContext.moveDown id))
        = some (applySourceResult
          { page with expanded_source_popover := none } cfg l') := by
    rw [regionUpdate_sourceContext page cfg locales _ hc, hop1]
    rfl
  have hc' := applySourceResult_config
    { page with expanded_source_popover := none } cfg l'
  have hop2 : sourceOp l' (SourceContext.moveUp (id + 1))
      = some locales := by
    have hback := vecSwap_vecSwap locales l' id (id + 1) hsw
    simp [sourceOp, Nat.succ_sub_one, hback]
  have h2 := regionUpdate_sourceContext
    (applySourceResult { page with expanded_source_popover := none } cfg l')
    _ _ (SourceContext.moveUp (id + 1)) hc'
  rw [hop2] at h2
  exact ⟨_, _, h1, h2.trans rfl, prefLocales_applySourceResult _ _ _⟩

/-- Witness for C10: MoveDown(0) then MoveUp(1) restores the
three-entry sample list. -/
theorem move_down_then_up_witness :
    ∃ p' p'', regionUpdate sampleRegionPage
        (RegionMessage.sourceContext (SourceContext.moveDown 0)) = some p'
      ∧ regionUpdate p'
          (RegionMessage.sourceContext (SourceContext.moveUp 1)) = some p''
      ∧ prefLocales p'' = some [['e', 'n'], ['f', 'r'], ['d', 'e']] :=
  move_down_then_up sampleRegionPage _ _ 0 rfl (by decide)

/-- Config pair resulting from a successful AddLanguage: the new code
appended to the preferred-languages list, with the list written to the
store. -/
def addLanguageConfig (cfg : ConfigState) (locales : List Str)
    (code : Str) : ConfigState × List Str :=
  let locales' := locales ++ [code]
  ({ cfg with system_locales_stored := some locales' }, locales')

/-- Page resulting from a successful AddLanguage. -/
def addLanguageResult (page : RegionPage) (cfg : ConfigState)
    (locales : List Str) (code : Str) : RegionPage :=
  { page with config := some (addLanguageConfig cfg locales code) }

/-- Reduction of the AddLanguage handler once the language lookup and
the config are known. -/
theorem regionUpdate_addLanguage_eq (page : RegionPage) (id : Nat)
    (language : SystemLocale) (cfg : ConfigState) (locales : List Str)
    (hlang : slotGet page.available_languages id = some language)
    (hc : page.config = some (cfg, locales)) :
    regionUpdate page (RegionMessage.addLanguage id) =
      if language.lang_code ∈ locales then some page
      else some (addLanguageResult page cfg locales language.lang_code) := by
  simp only [regionUpdate, hlang, hc]
  rfl

/-- C5: for AddLanguage(id) with id denoting an available language and
a config loaded — if the language's code is not yet in the
preferred-languages list, handling the message appends it at the end
and writes the updated list to the store; if it is already present,
the page (list and store included) is left unchanged; and handling the
message twice has the same effect as handling it once. -/
theorem add_language_spec (page : RegionPage) (id : Nat)
    (language : SystemLocale) (cfg : ConfigState) (locales : List Str)
    (hlang : slotGet page.available_languages id = some language)
    (hc : page.config = some (cfg, locales)) :
    (language.lang_code ∉ locales →
      regionUpdate page (RegionMessage.addLanguage id)
        = some (addLanguageResult page cfg locales language.lang_code))
    ∧ (language.lang_code ∈ locales →
      regionUpdate page (RegionMessage.addLanguage id) = some page)
    ∧ ((regionUpdate page (RegionMessage.addLanguage id)).bind
          (fun p => regionUpdate p (RegionMessage.addLanguage id))
        = regionUpdate page (RegionMessage.addLanguage id)) := by
  refine ⟨?_, ?_, ?_⟩
  · intro hm
    rw [regionUpdate_addLanguage_eq page id language cfg locales hlang hc,
      if_neg hm]
  · intro hm
    rw [regionUpdate_addLanguage_eq page id language cfg locales hlang hc,
      if_pos hm]
  · by_cases hm : language.lang_code ∈ locales
    · rw [regionUpdate_addLanguage_eq page id language cfg locales hlang hc,
        if_pos hm]
      show regionUpdate page (RegionMessage.addLanguage id) = some page
      rw [regionUpdate_addLanguage_eq page id language cfg locales hlang hc,
        if_pos hm]
    · rw [regionUpdate_addLanguage_eq page id language cfg locales hlang hc,
        if_neg hm]
      show regionUpdate
          (addLanguageResult page cfg locales language.lang_code)
          (RegionMessage.addLanguage id)
        = some (addLanguageResult page cfg locales language.lang_code)
      have hlang' : slotGet (addLanguageResult page cfg locales
          language.lang_code).available_languages id = some language := hlang
      have hc' : (addLanguageResult page cfg locales
            language.lang_code).config =
          some (addLanguageConfig cfg locales language.lang_code) := rfl
      have hmem : language.lang_code
          ∈ (addLanguageConfig cfg locales language.lang_code).2 :=
        List.mem_append_right _ (List.mem_singleton_self _)
      rw [regionUpdate_addLanguage_eq _ id language
          (addLanguageConfig cfg locales language.lang_code).1
          (addLanguageConfig cfg locales language.lang_code).2 hlang' hc',
        if_pos hmem]

/-- Witness for C5: adding an already-present language leaves the
sample page unchanged, and adding the absent Italian locale appends
its code. -/
theorem add_language_spec_witness :
    regionUpdate sampleRegionPage (RegionMessage.addLanguage 0)
        = some sampleRegionPage
    ∧ (∃ p, regionUpdate sampleRegionPage (RegionMessage.addLanguage 2)
          = some p
        ∧ prefLocales p
            = some [['e', 'n'], ['f', 'r'], ['d', 'e'], ['i', 't']]) := by
  constructor
  · exact (add_language_spec sampleRegionPage 0 sampleLocaleEn _ _
      (by decide) rfl).2.1 (by decide)
  · have h := (add_language_spec sampleRegionPage 2 sampleLocaleIt _ _
      (by decide) rfl).1 (by decide)
    exact ⟨_, h, by decide⟩

/-- Witness for C6: selecting index 0 of the two-timezone sample page
issues a request carrying "UTC", and index 5 issues none. -/
theorem timezone_message_request_witness :
    (dateUpdate sampleEnv sampleDatePage (DateMessage.timezone 0)).2
        = [DateEffect.setTimezoneRequest ['U', 'T', 'C']]
    ∧ (dateUpdate sampleEnv sampleDatePage (DateMessage.timezone 5)).2
        = [] :=
  ⟨(timezone_message_request sampleEnv sampleDatePage 0).2.1
      ['U', 'T', 'C'] (by decide),
   (timezone_message_request sampleEnv sampleDatePage 5).2.2.1
      (by decide)⟩

end CosmicSettings
